import Mathlib

/-!
# Verification of the multi-tenant issue-management API

Shallow embedding of the repository's core logic:
* `TenantGuard.canActivate` / `RolesGuard.canActivate` (the guards),
* `IssuesService.create / findAll / findOne / update / remove`,
* `ActivityService.logActivity / getActivitiesByIssue`,
together with the controller's route/role wiring.

The persistence layer is modelled as an explicit `Db` state (lists of
users, issues and activity-log rows) threaded through the operations;
fallible operations return `Except ApiError`.  JavaScript truthiness of
the guarding conditions (`if (dto.assigneeId)`, `x || 'unassigned'`,
missing-or-empty header checks) is modelled faithfully: an empty string
and an absent value are both falsy.  `undefined` versus `null` for the
update DTO's `assigneeId` is modelled as `Option (Option String)`.
-/

namespace IssueApi

/-- `Role` enum: the two allowed values of the `x-user-role` header. -/
inductive Role where
  | ADMIN
  | MEMBER
deriving DecidableEq, Repr

/-- Modelled from the spec: the `IssueStatus` enum of the Prisma schema
(the schema file itself is not among the sources; the spec names `OPEN`
as the lifecycle start state and `IN_PROGRESS` as a further state). -/
inductive IssueStatus where
  | OPEN
  | IN_PROGRESS
  | RESOLVED
  | CLOSED
deriving DecidableEq, Repr

/-- The string stored for a status in an activity-log row. -/
def statusToString : IssueStatus → String
  | .OPEN => "OPEN"
  | .IN_PROGRESS => "IN_PROGRESS"
  | .RESOLVED => "RESOLVED"
  | .CLOSED => "CLOSED"

/-- `ActivityType` enum, as used by `IssuesService` and `ActivityService`. -/
inductive ActivityType where
  | CREATED
  | STATUS_CHANGED
  | ASSIGNEE_CHANGED
  | UPDATED
  | DELETED
deriving DecidableEq, Repr

/-- A `User` row: id, name, email, role, organization. -/
structure User where
  id : String
  name : String
  email : String
  role : Role
  organizationId : String
deriving DecidableEq, Repr

/-- An `Issue` row.  `createdAt` is the server-assigned creation time. -/
structure Issue where
  id : String
  title : String
  description : Option String
  priority : Option String
  status : IssueStatus
  organizationId : String
  createdById : String
  assigneeId : Option String
  createdAt : Nat
deriving DecidableEq, Repr

/-- An `ActivityLog` row.  `performedAt` is the server-assigned timestamp. -/
structure ActivityLog where
  id : Nat
  issueId : String
  actionType : ActivityType
  oldValue : Option String
  newValue : Option String
  performedBy : String
  performedAt : Nat
deriving DecidableEq, Repr

/-- The database state: the three tables, a fresh-id counter for
server-generated identifiers, and the server clock. -/
structure Db where
  users : List User
  issues : List Issue
  activities : List ActivityLog
  nextId : Nat
  now : Nat
deriving DecidableEq, Repr

/-- The error taxonomy surfaced by the service and the guards:
`UnauthorizedException`, `ForbiddenException`, `NotFoundException`. -/
inductive ApiError where
  | unauthorized (msg : String)
  | forbidden (msg : String)
  | notFound (msg : String)
deriving DecidableEq, Repr

/-- The `select: id, name, email` user summary embedded by the queries. -/
structure UserSummary where
  id : String
  name : String
  email : String
deriving DecidableEq, Repr

/-- `userSummary st uid`: the `id, name, email` projection of the user
with id `uid`, when one exists (the relational join of an include). -/
def userSummary (st : Db) (uid : String) : Option UserSummary :=
  (st.users.find? fun u => u.id == uid).map fun u => ⟨u.id, u.name, u.email⟩

/-- An activity-log row with its performer summary embedded
(`include performedByUser`). -/
structure ActivityView where
  entry : ActivityLog
  performedByUser : Option UserSummary
deriving DecidableEq, Repr

/-- An issue with creator and assignee summaries embedded
(`include createdBy, assignee`). -/
structure IssueView where
  issue : Issue
  createdBy : Option UserSummary
  assignee : Option UserSummary
deriving DecidableEq, Repr

/-- The shape returned by `findOne`: the issue, its embedded summaries
and its full activity history. -/
structure IssueDetail where
  issue : Issue
  createdBy : Option UserSummary
  assignee : Option UserSummary
  activities : List ActivityView
deriving DecidableEq, Repr

/-- JavaScript truthiness of an optional string: `undefined` and the
empty string are falsy. -/
def truthyStr : Option String → Bool
  | none => false
  | some s => s ≠ ""

/-- `x || 'unassigned'` on a nullable string: the sentinel replaces a
falsy (absent or empty) value. -/
def orUnassigned : Option String → String
  | none => "unassigned"
  | some s => if s = "" then "unassigned" else s

/-- `CreateIssueDto`: `title` required, the rest optional. -/
structure CreateIssueDto where
  title : String
  description : Option String
  priority : Option String
  assigneeId : Option String
deriving DecidableEq, Repr

/-- `UpdateIssueDto`: every field optional.  For `assigneeId` the outer
`Option` is `undefined` (field not sent) and the inner is `null`
(explicitly cleared), matching the `!== undefined` test in the code. -/
structure UpdateIssueDto where
  title : Option String
  description : Option String
  status : Option IssueStatus
  priority : Option String
  assigneeId : Option (Option String)
deriving DecidableEq, Repr

/-- `ActivityService.logActivity`: inserts one immutable row with a
server-assigned id and timestamp. -/
def logActivity (st : Db) (issueId : String) (actionType : ActivityType)
    (oldValue newValue : Option String) (performedBy : String) : Db :=
  { st with
    activities :=
      st.activities ++
        [⟨st.nextId, issueId, actionType, oldValue, newValue, performedBy, st.now⟩],
    nextId := st.nextId + 1 }

/-- `prisma.user.findFirst where: id, organizationId` — the tenant-scoped
assignee lookup shared by `create` and `update`. -/
def findUserInOrg (st : Db) (uid organizationId : String) : Option User :=
  st.users.find? fun u => u.id == uid && u.organizationId == organizationId

/-- The view of an issue with its creator/assignee summaries resolved
against the database state. -/
def issueView (st : Db) (i : Issue) : IssueView :=
  ⟨i, userSummary st i.createdById, i.assigneeId.bind (userSummary st)⟩

/-- Newest-first ordering on issues (`orderBy createdAt desc`). -/
def newestIssueFirst (a b : Issue) : Prop := b.createdAt ≤ a.createdAt

instance : DecidableRel newestIssueFirst := fun a b =>
  inferInstanceAs (Decidable (b.createdAt ≤ a.createdAt))

instance : IsTotal Issue newestIssueFirst :=
  ⟨fun a b => (Nat.le_total b.createdAt a.createdAt)⟩

instance : IsTrans Issue newestIssueFirst :=
  ⟨fun _ _ _ hab hbc => Nat.le_trans hbc hab⟩

/-- Newest-first ordering on activity rows (`orderBy performedAt desc`). -/
def newestActivityFirst (a b : ActivityLog) : Prop := b.performedAt ≤ a.performedAt

instance : DecidableRel newestActivityFirst := fun a b =>
  inferInstanceAs (Decidable (b.performedAt ≤ a.performedAt))

instance : IsTotal ActivityLog newestActivityFirst :=
  ⟨fun a b => (Nat.le_total b.performedAt a.performedAt)⟩

instance : IsTrans ActivityLog newestActivityFirst :=
  ⟨fun _ _ _ hab hbc => Nat.le_trans hbc hab⟩

/-- The activity history of one issue, newest first, with performer
summaries — the query of `ActivityService.getActivitiesByIssue` and of
the `activities` include inside `IssuesService.findOne` (both are
`where issueId, orderBy performedAt desc, include performedByUser`). -/
def activityHistory (st : Db) (issueId : String) : List ActivityView :=
  ((st.activities.filter fun e => e.issueId == issueId).insertionSort
      newestActivityFirst).map
    fun e => ⟨e, userSummary st e.performedBy⟩

/-- `ActivityService.getActivitiesByIssue issueId`. -/
def getActivitiesByIssue (issueId : String) (st : Db) : List ActivityView :=
  activityHistory st issueId

/-- `IssuesService.create`.  If the dto's `assigneeId` is truthy, a user
with that id must exist in the caller's organization, else
`ForbiddenException`; then the issue row is inserted with status `OPEN`,
organization and creator stamped from context, and one `CREATED`
activity row is logged. -/
def create (dto : CreateIssueDto) (userId organizationId : String) (st : Db) :
    Except ApiError (IssueView × Db) :=
  if truthyStr dto.assigneeId &&
      (findUserInOrg st (dto.assigneeId.getD "") organizationId).isNone then
    .error (.forbidden "Assignee must belong to your organization")
  else
    let issue : Issue :=
      { id := "issue-" ++ toString st.nextId
        title := dto.title
        description := dto.description
        priority := dto.priority
        status := .OPEN
        organizationId := organizationId
        createdById := userId
        assigneeId := dto.assigneeId
        createdAt := st.now }
    let st1 : Db := { st with issues := st.issues ++ [issue], nextId := st.nextId + 1 }
    let st2 := logActivity st1 issue.id .CREATED none none userId
    .ok (issueView st1 issue, st2)

/-- `IssuesService.findAll organizationId`: every issue of the
organization, newest first, with creator/assignee summaries. -/
def findAll (organizationId : String) (st : Db) : List IssueView :=
  ((st.issues.filter fun i => i.organizationId == organizationId).insertionSort
      newestIssueFirst).map (issueView st)

/-- `IssuesService.findOne id organizationId`: `findFirst` on id and
organization; `NotFoundException` when there is no match; otherwise the
issue with summaries and its activity history, newest first. -/
def findOne (id organizationId : String) (st : Db) : Except ApiError IssueDetail :=
  match st.issues.find? fun i => i.id == id && i.organizationId == organizationId with
  | none => .error (.notFound "Issue not found")
  | some issue =>
      .ok ⟨issue, userSummary st issue.createdById,
        issue.assigneeId.bind (userSummary st), activityHistory st issue.id⟩

/-- One element of the `changes` array accumulated by `update`. -/
structure Change where
  actionType : ActivityType
  oldValue : Option String
  newValue : Option String
deriving DecidableEq, Repr

/-- The `changes` array of `update`: a `STATUS_CHANGED` element when the
dto carries a status differing from the persisted one, then an
`ASSIGNEE_CHANGED` element when the dto carries an `assigneeId` (possibly
`null`) differing from the persisted one, with falsy values replaced by
the `unassigned` sentinel on both sides. -/
def changesFor (existing : Issue) (dto : UpdateIssueDto) : List Change :=
  (match dto.status with
    | some s =>
        if s ≠ existing.status then
          [⟨.STATUS_CHANGED, some (statusToString existing.status),
            some (statusToString s)⟩]
        else []
    | none => []) ++
  (match dto.assigneeId with
    | some a =>
        if a ≠ existing.assigneeId then
          [⟨.ASSIGNEE_CHANGED, some (orUnassigned existing.assigneeId),
            some (orUnassigned a)⟩]
        else []
    | none => [])

/-- `prisma.issue.update where: id` — applies the dto's present fields to
the record with the given id (id is the primary key, so the first match
is the record; no `organizationId` condition appears here). -/
def applyUpdate (dto : UpdateIssueDto) (i : Issue) : Issue :=
  { i with
    title := dto.title.getD i.title
    description := match dto.description with
      | some d => some d
      | none => i.description
    status := dto.status.getD i.status
    priority := match dto.priority with
      | some p => some p
      | none => i.priority
    assigneeId := match dto.assigneeId with
      | some a => a
      | none => i.assigneeId }

/-- The issue table after `prisma.issue.update where: id` (first match
only, as ids are unique). -/
def updateIssueTable (dto : UpdateIssueDto) (id : String) : List Issue → List Issue
  | [] => []
  | i :: rest =>
      if i.id == id then applyUpdate dto i :: rest
      else i :: updateIssueTable dto id rest

/-- `IssuesService.update`: re-resolves via `findOne`, validates a truthy
new assignee against the organization, computes the `changes` diff,
persists the update by id, then logs one activity per change — or one
generic `UPDATED` entry when `changes` is empty. -/
def update (id : String) (dto : UpdateIssueDto) (userId organizationId : String)
    (st : Db) : Except ApiError (IssueView × Db) :=
  match findOne id organizationId st with
  | .error e => .error e
  | .ok existingDetail =>
      let existingIssue := existingDetail.issue
      if truthyStr dto.assigneeId.join &&
          (findUserInOrg st (dto.assigneeId.join.getD "") organizationId).isNone then
        .error (.forbidden "Assignee must belong to your organization")
      else
        let changes := changesFor existingIssue dto
        let st1 : Db := { st with issues := updateIssueTable dto id st.issues }
        let updatedIssue := applyUpdate dto existingIssue
        let st2 := changes.foldl
          (fun s c => logActivity s id c.actionType c.oldValue c.newValue userId) st1
        let st3 :=
          if changes.isEmpty then logActivity st2 id .UPDATED none none userId
          else st2
        .ok (issueView st1 updatedIssue, st3)

/-- `prisma.issue.delete where: id` together with its cascade.
Modelled from the spec: the cascade that removes an issue's activity
rows is declared in the Prisma schema, which is not among the sources;
the spec states that on issue deletion "activity entries for it are
removed as a consequence of the cascade". -/
def deleteIssueCascade (st : Db) (id : String) : Db :=
  { st with
    issues := st.issues.filter fun i => i.id ≠ id
    activities := st.activities.filter fun e => e.issueId ≠ id }

/-- `IssuesService.remove`: re-resolves via `findOne`, logs a `DELETED`
activity entry, then deletes the issue (the cascade removes its
activity rows). -/
def remove (id userId organizationId : String) (st : Db) :
    Except ApiError (String × Db) :=
  match findOne id organizationId st with
  | .error e => .error e
  | .ok _ =>
      let st1 := logActivity st id .DELETED none none userId
      let st2 := deleteIssueCascade st1 id
      .ok ("Issue deleted successfully", st2)

/-! ## Guards and controller wiring -/

/-- The raw header values of a request; `none` models an absent header. -/
structure Headers where
  xUserId : Option String
  xOrgId : Option String
  xUserRole : Option String
deriving DecidableEq, Repr

/-- The identity record `TenantGuard` attaches to the request.  The role
is kept as the raw header string, as in the code. -/
structure UserContext where
  userId : String
  organizationId : String
  role : String
deriving DecidableEq, Repr

/-- `TenantGuard.canActivate`: all three headers must be truthy
(present and non-empty), the role must be exactly `ADMIN` or `MEMBER`;
on success the identity record is built from the header values. -/
def tenantGuard (h : Headers) : Except ApiError UserContext :=
  if !truthyStr h.xUserId || !truthyStr h.xOrgId || !truthyStr h.xUserRole then
    .error (.unauthorized "Missing required headers: x-user-id, x-org-id, x-user-role")
  else if h.xUserRole.getD "" ≠ "ADMIN" && h.xUserRole.getD "" ≠ "MEMBER" then
    .error (.unauthorized "Invalid role. Must be ADMIN or MEMBER")
  else
    .ok ⟨h.xUserId.getD "", h.xOrgId.getD "", h.xUserRole.getD ""⟩

/-- `RolesGuard.canActivate`: `none` models a route without a `Roles`
decorator (the reflector returns `undefined`), which is allowed for
everyone; with declared roles, the request's user must exist and its
role must be included, else `ForbiddenException`. -/
def rolesGuard (requiredRoles : Option (List String)) (user : Option UserContext) :
    Except ApiError Unit :=
  match requiredRoles with
  | none => .ok ()
  | some roles =>
      match user with
      | none => .error (.forbidden "You do not have permission to perform this action")
      | some u =>
          if roles.contains u.role then .ok ()
          else .error (.forbidden "You do not have permission to perform this action")

/-- The five routes of `IssuesController`, with their request payloads. -/
inductive Route where
  | createRoute (dto : CreateIssueDto)
  | listRoute
  | getRoute (id : String)
  | updateRoute (id : String) (dto : UpdateIssueDto)
  | deleteRoute (id : String)
deriving DecidableEq, Repr

/-- The `Roles` metadata of each route: only `PATCH /issues/:id` and
`DELETE /issues/:id` carry `@Roles(Role.ADMIN)`. -/
def routeRoles : Route → Option (List String)
  | .updateRoute _ _ => some ["ADMIN"]
  | .deleteRoute _ => some ["ADMIN"]
  | _ => none

/-- The result payload of a handled request. -/
inductive ApiResult where
  | created (v : IssueView)
  | listed (vs : List IssueView)
  | fetched (d : IssueDetail)
  | updated (v : IssueView)
  | deleted (msg : String)
deriving DecidableEq, Repr

/-- The controller's handler body for each route, invoked with the
resolved identity. -/
def dispatch (r : Route) (u : UserContext) (st : Db) :
    Except ApiError (ApiResult × Db) :=
  match r with
  | .createRoute dto =>
      (create dto u.userId u.organizationId st).map fun p => (.created p.1, p.2)
  | .listRoute => .ok (.listed (findAll u.organizationId st), st)
  | .getRoute id => (findOne id u.organizationId st).map fun d => (.fetched d, st)
  | .updateRoute id dto =>
      (update id dto u.userId u.organizationId st).map fun p => (.updated p.1, p.2)
  | .deleteRoute id =>
      (remove id u.userId u.organizationId st).map fun p => (.deleted p.1, p.2)

/-- The request pipeline of `IssuesController`: `TenantGuard`, then
`RolesGuard` against the route's metadata with the attached user, then
the handler. -/
def handleRequest (h : Headers) (r : Route) (st : Db) :
    Except ApiError (ApiResult × Db) :=
  match tenantGuard h with
  | .error e => .error e
  | .ok user =>
      match rolesGuard (routeRoles r) (some user) with
      | .error e => .error e
      | .ok _ => dispatch r user st

/-! ## Example data used by witnesses and counterexamples -/

/-- An admin of organization `org1`. -/
def alice : User := ⟨"u1", "Alice", "alice@a", .ADMIN, "org1"⟩

/-- A member of organization `org1`. -/
def bob : User := ⟨"u2", "Bob", "bob@a", .MEMBER, "org1"⟩

/-- A member of organization `org2`. -/
def carl : User := ⟨"u3", "Carl", "carl@b", .MEMBER, "org2"⟩

/-- An issue of organization `org1`, assigned to `bob`. -/
def issue1 : Issue := ⟨"i1", "Bug", none, some "high", .OPEN, "org1", "u1", some "u2", 5⟩

/-- An issue of organization `org2`, unassigned. -/
def issue2 : Issue := ⟨"i2", "Other", none, none, .OPEN, "org2", "u3", none, 7⟩

/-- A database state with two organizations, three users and two issues. -/
def exDb : Db :=
  ⟨[alice, bob, carl], [issue1, issue2],
    [⟨0, "i1", .CREATED, none, none, "u1", 5⟩], 10, 20⟩

/-- An update dto that carries no field at all. -/
def exDtoNoop : UpdateIssueDto := ⟨none, none, none, none, none⟩

/-! ## Helper lemmas about `findOne` -/

/-- `findOne` has a successful result exactly when the caller's
organization contains an issue with the requested id. -/
theorem findOne_isOk_iff (id org : String) (st : Db) :
    (∃ d, findOne id org st = Except.ok d) ↔
      ∃ i ∈ st.issues, i.id = id ∧ i.organizationId = org := by
  constructor
  · rintro ⟨d, hd⟩
    rcases hfind : st.issues.find? (fun i => i.id == id && i.organizationId == org)
      with _ | i
    · simp [findOne, hfind] at hd
    · have hm := List.mem_of_find?_eq_some hfind
      have hp := List.find?_some hfind
      simp only [Bool.and_eq_true, beq_iff_eq] at hp
      exact ⟨i, hm, hp.1, hp.2⟩
  · rintro ⟨i, hm, hid, horg⟩
    have hs : (st.issues.find? (fun i => i.id == id && i.organizationId == org)).isSome :=
      List.find?_isSome.mpr ⟨i, hm, by simp [hid, horg]⟩
    rcases hfind : st.issues.find? (fun i => i.id == id && i.organizationId == org)
      with _ | j
    · rw [hfind] at hs
      simp at hs
    · exact ⟨⟨j, userSummary st j.createdById, j.assigneeId.bind (userSummary st),
        activityHistory st j.id⟩, by simp only [findOne, hfind]⟩

/-- When the caller's organization has no issue with the requested id —
because the id is unknown or because the issue lives in another
organization — `findOne` fails with the single not-found error. -/
theorem findOne_eq_notFound (id org : String) (st : Db)
    (h : ¬∃ i ∈ st.issues, i.id = id ∧ i.organizationId = org) :
    findOne id org st = .error (.notFound "Issue not found") := by
  rcases hfind : st.issues.find? (fun i => i.id == id && i.organizationId == org)
    with _ | i
  · simp only [findOne, hfind]
  · exfalso
    have hm := List.mem_of_find?_eq_some hfind
    have hp := List.find?_some hfind
    simp only [Bool.and_eq_true, beq_iff_eq] at hp
    exact h ⟨i, hm, hp.1, hp.2⟩

/-- A successful `findOne` returns an issue of the store that matches
both the requested id and the caller's organization. -/
theorem findOne_ok_mem (id org : String) (st : Db) (d : IssueDetail)
    (h : findOne id org st = .ok d) :
    d.issue ∈ st.issues ∧ d.issue.id = id ∧ d.issue.organizationId = org := by
  rcases hfind : st.issues.find? (fun i => i.id == id && i.organizationId == org)
    with _ | i
  · simp [findOne, hfind] at h
  · simp only [findOne, hfind, Except.ok.injEq] at h
    have hm := List.mem_of_find?_eq_some hfind
    have hp := List.find?_some hfind
    simp only [Bool.and_eq_true, beq_iff_eq] at hp
    subst h
    exact ⟨hm, hp.1, hp.2⟩

/-- A successful `findOne` is the `find?` of its filter. -/
theorem findOne_ok_find? (id org : String) (st : Db) (d : IssueDetail)
    (h : findOne id org st = .ok d) :
    st.issues.find? (fun i => i.id == id && i.organizationId == org) = some d.issue := by
  rcases hfind : st.issues.find? (fun i => i.id == id && i.organizationId == org)
    with _ | i
  · simp [findOne, hfind] at h
  · simp only [findOne, hfind, Except.ok.injEq] at h
    subst h
    exact hfind

/-- `update` propagates a `findOne` failure unchanged. -/
theorem update_of_findOne_error (id org uid : String) (st : Db)
    (dto : UpdateIssueDto) (e : ApiError) (h : findOne id org st = .error e) :
    update id dto uid org st = .error e := by
  simp only [update, h]

/-- `remove` propagates a `findOne` failure unchanged. -/
theorem remove_of_findOne_error (id org uid : String) (st : Db) (e : ApiError)
    (h : findOne id org st = .error e) :
    remove id uid org st = .error e := by
  simp only [remove, h]

/-! ## C1 -/

/-- C1: `findOne` succeeds exactly when an issue with the requested id
exists in the caller's organization, and then returns such an issue;
otherwise it fails with the one fixed not-found error, so an issue of a
different organization is indistinguishable from a nonexistent id; and
`update` and `remove` re-resolve through `findOne` first, propagating
the very same error. -/
theorem findOne_tenant_isolation (id org : String) (st : Db) :
    (∀ d, findOne id org st = .ok d →
        d.issue ∈ st.issues ∧ d.issue.id = id ∧ d.issue.organizationId = org) ∧
    ((∃ i ∈ st.issues, i.id = id ∧ i.organizationId = org) ↔
        ∃ d, findOne id org st = Except.ok d) ∧
    ((¬∃ i ∈ st.issues, i.id = id ∧ i.organizationId = org) →
        findOne id org st = .error (.notFound "Issue not found")) ∧
    (∀ e, findOne id org st = .error e →
        (∀ dto uid, update id dto uid org st = .error e) ∧
        (∀ uid, remove id uid org st = .error e)) := by
  refine ⟨fun d hd => findOne_ok_mem id org st d hd,
    (findOne_isOk_iff id org st).symm,
    findOne_eq_notFound id org st,
    fun e he => ⟨fun dto uid => update_of_findOne_error id org uid st dto e he,
      fun uid => remove_of_findOne_error id org uid st e he⟩⟩

/-- Witness for C1 at concrete inputs: in `exDb`, issue `i1` of `org1`
is found by an `org1` caller, while issue `i2` (which exists, but in
`org2`) yields the same not-found error as fetching it would, and
`update`/`remove` on it fail identically. -/
theorem findOne_tenant_isolation_witness :
    (∃ d, findOne "i1" "org1" exDb = Except.ok d) ∧
    update "i2" exDtoNoop "u9" "org1" exDb = .error (.notFound "Issue not found") ∧
    remove "i2" "u9" "org1" exDb = .error (.notFound "Issue not found") := by
  have h1 := findOne_tenant_isolation "i1" "org1" exDb
  have h2 := findOne_tenant_isolation "i2" "org1" exDb
  refine ⟨h1.2.1.mp ⟨issue1, by decide, by decide, by decide⟩,
    (h2.2.2.2 _ (by rfl)).1 exDtoNoop "u9",
    (h2.2.2.2 _ (by rfl)).2 "u9"⟩

/-! ## Helper lemmas about the guards -/

/-- A nullable string is falsy exactly when it is absent or empty. -/
theorem truthyStr_eq_false_iff (x : Option String) :
    truthyStr x = false ↔ x = none ∨ x = some "" := by
  rcases x with _ | s
  · simp [truthyStr]
  · simp [truthyStr]

/-- A `tenantGuard` failure is propagated by the whole pipeline, for
every route and every database state. -/
theorem handleRequest_of_tenantGuard_error (h : Headers) (r : Route) (st : Db)
    (e : ApiError) (he : tenantGuard h = .error e) :
    handleRequest h r st = .error e := by
  simp only [handleRequest, he]

/-- A `rolesGuard` failure after a successful `tenantGuard` is
propagated by the whole pipeline, for every database state. -/
theorem handleRequest_of_rolesGuard_error (h : Headers) (r : Route) (st : Db)
    (u : UserContext) (e : ApiError) (hu : tenantGuard h = .ok u)
    (he : rolesGuard (routeRoles r) (some u) = .error e) :
    handleRequest h r st = .error e := by
  simp only [handleRequest, hu, he]

/-- When both guards pass, the pipeline runs the route's handler. -/
theorem handleRequest_of_guards_ok (h : Headers) (r : Route) (st : Db)
    (u : UserContext) (hu : tenantGuard h = .ok u)
    (hr : rolesGuard (routeRoles r) (some u) = .ok ()) :
    handleRequest h r st = dispatch r u st := by
  simp only [handleRequest, hu, hr]

/-! ## C5 -/

/-- C5: identity resolution fails — with an authentication error, for
every route and every database state, before the role check and before
any persistence access — exactly when one of the three headers is
missing or empty or the role header is neither `ADMIN` nor `MEMBER`;
on success the attached identity record is built from the three header
values. -/
theorem tenantGuard_resolution (h : Headers) :
    ((∃ e, tenantGuard h = Except.error e) ↔
      (h.xUserId = none ∨ h.xUserId = some "" ∨
        h.xOrgId = none ∨ h.xOrgId = some "" ∨
        h.xUserRole = none ∨ h.xUserRole = some "" ∨
        (h.xUserRole ≠ some "ADMIN" ∧ h.xUserRole ≠ some "MEMBER"))) ∧
    (∀ e, tenantGuard h = .error e → ∃ m, e = .unauthorized m) ∧
    (∀ u, tenantGuard h = .ok u →
      h.xUserId = some u.userId ∧ h.xOrgId = some u.organizationId ∧
        h.xUserRole = some u.role ∧ (u.role = "ADMIN" ∨ u.role = "MEMBER")) ∧
    (∀ e, tenantGuard h = .error e → ∀ r st, handleRequest h r st = .error e) := by
  refine ⟨?_, ?_, ?_,
    fun e he r st => handleRequest_of_tenantGuard_error h r st e he⟩
  · constructor
    · rintro ⟨e, he⟩
      unfold tenantGuard at he
      split at he
      · rename_i hcond
        simp only [Bool.or_eq_true, Bool.not_eq_true'] at hcond
        rcases hcond with (hc | hc) | hc
        · rcases (truthyStr_eq_false_iff _).mp hc with h1 | h1
          · exact Or.inl h1
          · exact Or.inr (Or.inl h1)
        · rcases (truthyStr_eq_false_iff _).mp hc with h1 | h1
          · exact Or.inr (Or.inr (Or.inl h1))
          · exact Or.inr (Or.inr (Or.inr (Or.inl h1)))
        · rcases (truthyStr_eq_false_iff _).mp hc with h1 | h1
          · exact Or.inr (Or.inr (Or.inr (Or.inr (Or.inl h1))))
          · exact Or.inr (Or.inr (Or.inr (Or.inr (Or.inr (Or.inl h1)))))
      · split at he
        · rename_i hrole
          simp only [Bool.and_eq_true, decide_eq_true_eq] at hrole
          refine Or.inr (Or.inr (Or.inr (Or.inr (Or.inr (Or.inr ⟨?_, ?_⟩)))))
          · intro hx
            exact hrole.1 (by rw [hx]; rfl)
          · intro hx
            exact hrole.2 (by rw [hx]; rfl)
        · simp at he
    · intro hdis
      by_cases hc :
          (!truthyStr h.xUserId || !truthyStr h.xOrgId || !truthyStr h.xUserRole) = true
      · exact ⟨_, by unfold tenantGuard; rw [if_pos hc]⟩
      · simp only [Bool.or_eq_true, Bool.not_eq_true', not_or, Bool.not_eq_false] at hc
        obtain ⟨⟨t1, t2⟩, t3⟩ := hc
        have n1 : h.xUserId ≠ none ∧ h.xUserId ≠ some "" := by
          constructor <;> intro hx <;> rw [hx] at t1 <;> simp [truthyStr] at t1
        have n2 : h.xOrgId ≠ none ∧ h.xOrgId ≠ some "" := by
          constructor <;> intro hx <;> rw [hx] at t2 <;> simp [truthyStr] at t2
        have n3 : h.xUserRole ≠ none ∧ h.xUserRole ≠ some "" := by
          constructor <;> intro hx <;> rw [hx] at t3 <;> simp [truthyStr] at t3
        rcases hdis with h1 | h1 | h1 | h1 | h1 | h1 | h1
        · exact absurd h1 n1.1
        · exact absurd h1 n1.2
        · exact absurd h1 n2.1
        · exact absurd h1 n2.2
        · exact absurd h1 n3.1
        · exact absurd h1 n3.2
        · rcases hr : h.xUserRole with _ | r
          · exact absurd hr n3.1
          · have hra : r ≠ "ADMIN" := by
              intro hx
              exact h1.1 (by rw [hr, hx])
            have hrm : r ≠ "MEMBER" := by
              intro hx
              exact h1.2 (by rw [hr, hx])
            refine ⟨.unauthorized "Invalid role. Must be ADMIN or MEMBER", ?_⟩
            unfold tenantGuard
            rw [if_neg (by simp_all), if_pos (by simp [hr, hra, hrm])]
  · intro e he
    unfold tenantGuard at he
    split at he
    · exact ⟨_, ((Except.error.injEq _ _).mp he).symm⟩
    · split at he
      · exact ⟨_, ((Except.error.injEq _ _).mp he).symm⟩
      · simp at he
  · intro u hu
    unfold tenantGuard at hu
    split at hu
    · simp at hu
    · split at hu
      · simp at hu
      · rename_i hcond hrole
        simp only [Bool.or_eq_true, Bool.not_eq_true', not_or, Bool.not_eq_false] at hcond
        obtain ⟨⟨t1, t2⟩, t3⟩ := hcond
        simp only [Bool.and_eq_true, decide_eq_true_eq, not_and, Decidable.not_not,
          Bool.not_eq_true] at hrole
        obtain rfl : (⟨h.xUserId.getD "", h.xOrgId.getD "", h.xUserRole.getD ""⟩ :
            UserContext) = u := (Except.ok.injEq _ _).mp hu
        rcases h1 : h.xUserId with _ | s1
        · rw [h1] at t1; simp [truthyStr] at t1
        · rcases h2 : h.xOrgId with _ | s2
          · rw [h2] at t2; simp [truthyStr] at t2
          · rcases h3 : h.xUserRole with _ | s3
            · rw [h3] at t3; simp [truthyStr] at t3
            · rw [h3] at hrole
              simp only [Option.getD_some] at hrole ⊢
              refine ⟨trivial, trivial, trivial, ?_⟩
              by_cases ha : s3 = "ADMIN"
              · exact Or.inl ha
              · exact Or.inr (hrole ha)

/-- Witness for C5 at concrete headers: an empty org header fails with
the authentication error for any route and state, and valid headers
resolve to the identity built from them. -/
theorem tenantGuard_resolution_witness :
    handleRequest ⟨some "u1", some "", some "ADMIN"⟩ .listRoute exDb =
      .error (.unauthorized "Missing required headers: x-user-id, x-org-id, x-user-role") ∧
    (∃ e, tenantGuard ⟨some "u1", some "org1", some "OWNER"⟩ = Except.error e) ∧
    (tenantGuard ⟨some "u1", some "org1", some "ADMIN"⟩ =
      .ok ⟨"u1", "org1", "ADMIN"⟩) := by
  have h1 := tenantGuard_resolution ⟨some "u1", some "", some "ADMIN"⟩
  have h2 := tenantGuard_resolution ⟨some "u1", some "org1", some "OWNER"⟩
  refine ⟨h1.2.2.2 _ (by rfl) .listRoute exDb, ?_, by rfl⟩
  exact h2.1.mpr (Or.inr (Or.inr (Or.inr (Or.inr (Or.inr (Or.inr
    ⟨by decide, by decide⟩))))))

/-! ## C6 -/

/-- C6: a route without declared roles is allowed for every identity;
with declared roles the guard allows the request exactly when the
identity's role is in the declared set and otherwise fails with the
permission error; the check runs after identity resolution (a
`tenantGuard` failure pre-empts it) and before any persistence access
(its failure is propagated for every database state, unread). -/
theorem rolesGuard_policy :
    (∀ u, rolesGuard none u = .ok ()) ∧
    (∀ roles u, rolesGuard (some roles) (some u) = .ok () ↔ u.role ∈ roles) ∧
    (∀ roles u, u.role ∉ roles →
        rolesGuard (some roles) (some u) =
          .error (.forbidden "You do not have permission to perform this action")) ∧
    (∀ h r st e, tenantGuard h = .error e → handleRequest h r st = .error e) ∧
    (∀ h r st u e, tenantGuard h = .ok u →
        rolesGuard (routeRoles r) (some u) = .error e →
        handleRequest h r st = .error e) := by
  refine ⟨fun u => rfl, ?_, ?_,
    fun h r st e he => handleRequest_of_tenantGuard_error h r st e he,
    fun h r st u e hu he => handleRequest_of_rolesGuard_error h r st u e hu he⟩
  · intro roles u
    by_cases hc : u.role ∈ roles
    · simp [rolesGuard, hc]
    · simp [rolesGuard, hc]
  · intro roles u hc
    simp [rolesGuard, hc]

/-- Witness for C6 at concrete inputs: the list route (no declared
roles) admits a member; the declared set `[ADMIN]` admits the admin,
rejects the member with the permission error, and the rejection is what
the pipeline returns on a delete request by a member. -/
theorem rolesGuard_policy_witness :
    rolesGuard (routeRoles .listRoute) (some ⟨"u2", "org1", "MEMBER"⟩) = .ok () ∧
    rolesGuard (some ["ADMIN"]) (some ⟨"u1", "org1", "ADMIN"⟩) = .ok () ∧
    rolesGuard (some ["ADMIN"]) (some ⟨"u2", "org1", "MEMBER"⟩) =
      .error (.forbidden "You do not have permission to perform this action") ∧
    handleRequest ⟨some "u2", some "org1", some "MEMBER"⟩ (.deleteRoute "i1") exDb =
      .error (.forbidden "You do not have permission to perform this action") := by
  have h := rolesGuard_policy
  refine ⟨h.1 _, (h.2.1 ["ADMIN"] ⟨"u1", "org1", "ADMIN"⟩).mpr (by decide),
    h.2.2.1 ["ADMIN"] ⟨"u2", "org1", "MEMBER"⟩ (by decide),
    h.2.2.2.2 _ _ exDb ⟨"u2", "org1", "MEMBER"⟩ _ (by rfl) (by rfl)⟩

/-! ## C7 -/

/-- C7: with a resolved identity, update and delete requests by a
`MEMBER` fail with the permission error (no state is produced), while
an `ADMIN` reaches the corresponding service operation; create, list
and get-by-id reach their service operation for every resolved role. -/
theorem admin_only_mutations (hd : Headers) (u : UserContext) (st : Db)
    (hok : tenantGuard hd = .ok u) :
    (u.role = "MEMBER" →
      (∀ id dto, handleRequest hd (.updateRoute id dto) st =
          .error (.forbidden "You do not have permission to perform this action")) ∧
      (∀ id, handleRequest hd (.deleteRoute id) st =
          .error (.forbidden "You do not have permission to perform this action"))) ∧
    (u.role = "ADMIN" →
      (∀ id dto, handleRequest hd (.updateRoute id dto) st =
          (update id dto u.userId u.organizationId st).map fun p =>
            (.updated p.1, p.2)) ∧
      (∀ id, handleRequest hd (.deleteRoute id) st =
          (remove id u.userId u.organizationId st).map fun p =>
            (.deleted p.1, p.2))) ∧
    (∀ dto, handleRequest hd (.createRoute dto) st =
        (create dto u.userId u.organizationId st).map fun p => (.created p.1, p.2)) ∧
    handleRequest hd .listRoute st = .ok (.listed (findAll u.organizationId st), st) ∧
    (∀ id, handleRequest hd (.getRoute id) st =
        (findOne id u.organizationId st).map fun d => (.fetched d, st)) := by
  refine ⟨?_, ?_, ?_, ?_, ?_⟩
  · intro hm
    constructor
    · intro id dto
      exact handleRequest_of_rolesGuard_error hd _ st u _ hok
        (by simp [rolesGuard, routeRoles, hm])
    · intro id
      exact handleRequest_of_rolesGuard_error hd _ st u _ hok
        (by simp [rolesGuard, routeRoles, hm])
  · intro ha
    constructor
    · intro id dto
      rw [handleRequest_of_guards_ok hd _ st u hok
        (by simp [rolesGuard, routeRoles, ha])]
      rfl
    · intro id
      rw [handleRequest_of_guards_ok hd _ st u hok
        (by simp [rolesGuard, routeRoles, ha])]
      rfl
  · intro dto
    rw [handleRequest_of_guards_ok hd (.createRoute dto) st u hok rfl]
    rfl
  · rw [handleRequest_of_guards_ok hd .listRoute st u hok rfl]
    rfl
  · intro id
    rw [handleRequest_of_guards_ok hd (.getRoute id) st u hok rfl]
    rfl

/-- Witness for C7 at concrete inputs: a member's update request is
forbidden, an admin's delete request runs `remove`, and a member's list
request runs `findAll`. -/
theorem admin_only_mutations_witness :
    handleRequest ⟨some "u2", some "org1", some "MEMBER"⟩
        (.updateRoute "i1" exDtoNoop) exDb =
      .error (.forbidden "You do not have permission to perform this action") ∧
    handleRequest ⟨some "u1", some "org1", some "ADMIN"⟩ (.deleteRoute "i1") exDb =
      (remove "i1" "u1" "org1" exDb).map (fun p => (.deleted p.1, p.2)) ∧
    handleRequest ⟨some "u2", some "org1", some "MEMBER"⟩ .listRoute exDb =
      .ok (.listed (findAll "org1" exDb), exDb) := by
  have hM := admin_only_mutations ⟨some "u2", some "org1", some "MEMBER"⟩
    ⟨"u2", "org1", "MEMBER"⟩ exDb (by rfl)
  have hA := admin_only_mutations ⟨some "u1", some "org1", some "ADMIN"⟩
    ⟨"u1", "org1", "ADMIN"⟩ exDb (by rfl)
  exact ⟨(hM.1 rfl).1 "i1" exDtoNoop, (hA.2.1 rfl).2 "i1", hM.2.2.2.1⟩

/-! ## C3 -/

/-- A create dto whose `assigneeId` is supplied but is the empty
string: a falsy value, so the code's `if (createIssueDto.assigneeId)`
skips the organization check. -/
def exDtoEmptyAssignee : CreateIssueDto := ⟨"T", none, none, some ""⟩

/-- Counterexample to C3 as stated: in `exDb` no user has the id `""`
in `org1`, so the supplied `assigneeId` of `exDtoEmptyAssignee` does
not identify a user of the caller's organization — yet `create`
succeeds (persisting an issue) instead of failing with a permission
error, because the empty string is falsy and the check is skipped. -/
theorem create_empty_assignee_cex :
    (∀ u ∈ exDb.users, ¬(u.id = "" ∧ u.organizationId = "org1")) ∧
    ∃ p, create exDtoEmptyAssignee "u1" "org1" exDb = Except.ok p := by
  exact ⟨by decide, ⟨_, rfl⟩⟩

/-- C3 (amended): a supplied **non-empty** `assigneeId` that does not
identify a user of the caller's organization makes `create` fail with
the permission error (so no issue row and no activity row is produced);
an absent or empty `assigneeId`, or one identifying a user of the
caller's organization, passes the check and `create` succeeds. -/
theorem create_assignee_guard (dto : CreateIssueDto) (uid org : String) (st : Db) :
    (∀ a, dto.assigneeId = some a → a ≠ "" →
      (∀ u ∈ st.users, ¬(u.id = a ∧ u.organizationId = org)) →
      create dto uid org st =
        .error (.forbidden "Assignee must belong to your organization")) ∧
    ((dto.assigneeId = none ∨ dto.assigneeId = some "" ∨
        ∃ a, dto.assigneeId = some a ∧
          ∃ u ∈ st.users, u.id = a ∧ u.organizationId = org) →
      ∃ p, create dto uid org st = Except.ok p) := by
  constructor
  · intro a ha hne hnouser
    have hfind : findUserInOrg st a org = none := by
      unfold findUserInOrg
      rw [List.find?_eq_none]
      intro u hu
      simp only [Bool.and_eq_true, beq_iff_eq, not_and]
      intro h1 h2
      exact hnouser u hu ⟨h1, h2⟩
    unfold create
    rw [ha]
    simp [truthyStr, hne, hfind]
  · intro hcase
    rcases hcase with h0 | h0 | ⟨a, ha, u, hu, hid, horg⟩
    · unfold create
      rw [h0]
      exact ⟨_, rfl⟩
    · unfold create
      rw [h0]
      exact ⟨_, rfl⟩
    · have hs : (findUserInOrg st a org).isSome := by
        unfold findUserInOrg
        exact List.find?_isSome.mpr ⟨u, hu, by simp [hid, horg]⟩
      rcases hv : findUserInOrg st a org with _ | w
      · rw [hv] at hs
        simp at hs
      · unfold create
        rw [ha]
        simp only [Option.getD_some, hv, Option.isNone_some, Bool.and_false,
          Bool.false_eq_true, if_false]
        exact ⟨_, rfl⟩

/-- Witness for the amended C3 at concrete inputs: assigning to `u3`
(a user of `org2`) from `org1` is forbidden; assigning to `u2` (a user
of `org1`) succeeds. -/
theorem create_assignee_guard_witness :
    create ⟨"T", none, none, some "u3"⟩ "u1" "org1" exDb =
      .error (.forbidden "Assignee must belong to your organization") ∧
    ∃ p, create ⟨"T", none, none, some "u2"⟩ "u1" "org1" exDb = Except.ok p := by
  have h1 := create_assignee_guard ⟨"T", none, none, some "u3"⟩ "u1" "org1" exDb
  have h2 := create_assignee_guard ⟨"T", none, none, some "u2"⟩ "u1" "org1" exDb
  exact ⟨h1.1 "u3" rfl (by decide) (by decide),
    h2.2 (Or.inr (Or.inr ⟨"u2", rfl, bob, by decide, by decide, by decide⟩))⟩

/-! ## C4 -/

/-- C4: a successful `create` returns the persisted issue with status
`OPEN`, organization and creator stamped from context, the optional
fields taken from the request, exactly one appended issue row, exactly
one appended `CREATED` activity row attributed to the caller, and
creator/assignee summaries embedded in the returned view. -/
theorem create_success_shape (dto : CreateIssueDto) (uid org : String) (st : Db)
    (v : IssueView) (st' : Db) (h : create dto uid org st = .ok (v, st')) :
    v.issue.status = .OPEN ∧
    v.issue.organizationId = org ∧
    v.issue.createdById = uid ∧
    v.issue.title = dto.title ∧
    v.issue.description = dto.description ∧
    v.issue.priority = dto.priority ∧
    v.issue.assigneeId = dto.assigneeId ∧
    st'.issues = st.issues ++ [v.issue] ∧
    st'.users = st.users ∧
    (∃ e, st'.activities = st.activities ++ [e] ∧ e.actionType = .CREATED ∧
      e.issueId = v.issue.id ∧ e.performedBy = uid ∧
      e.oldValue = none ∧ e.newValue = none) ∧
    v.createdBy = userSummary st uid ∧
    v.assignee = dto.assigneeId.bind (userSummary st) := by
  unfold create at h
  split at h
  · simp at h
  · simp only [Except.ok.injEq, Prod.mk.injEq] at h
    obtain ⟨hv, hst⟩ := h
    subst hv
    subst hst
    exact ⟨rfl, rfl, rfl, rfl, rfl, rfl, rfl, rfl, rfl,
      ⟨_, rfl, rfl, rfl, rfl, rfl, rfl⟩, rfl, rfl⟩

/-- The concrete create request used by the C4 witness. -/
def exCreateDto : CreateIssueDto := ⟨"Bug2", none, some "high", none⟩

/-- The concrete result of the C4 witness's create request. -/
def exCreatedPair : IssueView × Db :=
  (create exCreateDto "u2" "org1" exDb).toOption.getD
    (⟨⟨"", "", none, none, .OPEN, "", "", none, 0⟩, none, none⟩, exDb)

/-- Witness for C4 at concrete inputs: the issue created by `u2` in
`org1` has status `OPEN`, the stamped organization and creator, and
exactly one issue row is appended. -/
theorem create_success_shape_witness :
    exCreatedPair.1.issue.status = IssueStatus.OPEN ∧
    exCreatedPair.1.issue.organizationId = "org1" ∧
    exCreatedPair.1.issue.createdById = "u2" ∧
    exCreatedPair.2.issues = exDb.issues ++ [exCreatedPair.1.issue] := by
  have h := create_success_shape exCreateDto "u2" "org1" exDb
    exCreatedPair.1 exCreatedPair.2 (by rfl)
  exact ⟨h.1, h.2.1, h.2.2.1, h.2.2.2.2.2.2.2.1⟩

/-! ## C8 -/

/-- C8: a successful `remove` logs the `DELETED` entry first — the
final state is exactly the cascade-delete applied to the state with
that entry appended — the cascade then removes all of the issue's
activity rows (including the fresh `DELETED` one), and any later fetch
of the id, from any organization, fails with the not-found error. -/
theorem remove_logs_then_deletes (id uid org : String) (st : Db)
    (msg : String) (st' : Db) (h : remove id uid org st = .ok (msg, st')) :
    msg = "Issue deleted successfully" ∧
    st' = deleteIssueCascade (logActivity st id .DELETED none none uid) id ∧
    (∃ e ∈ (logActivity st id .DELETED none none uid).activities,
      e.issueId = id ∧ e.actionType = .DELETED ∧ e.performedBy = uid) ∧
    st'.issues = st.issues.filter (fun i => i.id ≠ id) ∧
    st'.activities = st.activities.filter (fun e => e.issueId ≠ id) ∧
    (∀ org2, findOne id org2 st' = .error (.notFound "Issue not found")) := by
  unfold remove at h
  split at h
  · simp at h
  · simp only [Except.ok.injEq, Prod.mk.injEq] at h
    obtain ⟨hmsg, hst⟩ := h
    subst hst
    refine ⟨hmsg.symm, rfl, ?_, rfl, ?_, ?_⟩
    · refine ⟨⟨st.nextId, id, .DELETED, none, none, uid, st.now⟩, ?_, rfl, rfl, rfl⟩
      simp [logActivity]
    · show ((st.activities ++
          [(⟨st.nextId, id, .DELETED, none, none, uid, st.now⟩ : ActivityLog)]).filter
            fun e => e.issueId ≠ id) =
        st.activities.filter fun e => e.issueId ≠ id
      rw [List.filter_append]
      simp
    · intro org2
      apply findOne_eq_notFound
      rintro ⟨i, hi, hid, -⟩
      have := List.mem_filter.mp hi
      simp only [ne_eq, decide_not, Bool.not_eq_true', decide_eq_false_iff_not] at this
      exact this.2 hid

/-- The state after the C8 witness's delete request. -/
def exRemovedDb : Db :=
  ((remove "i1" "u1" "org1" exDb).toOption.map Prod.snd).getD exDb

/-- Witness for C8 at concrete inputs: deleting `i1` from `org1` leaves
no `i1` row and no `i1` activity rows, and fetching `i1` afterwards is
not-found. -/
theorem remove_logs_then_deletes_witness :
    exRemovedDb.issues = exDb.issues.filter (fun i => i.id ≠ "i1") ∧
    exRemovedDb.activities = exDb.activities.filter (fun e => e.issueId ≠ "i1") ∧
    findOne "i1" "org1" exRemovedDb = .error (.notFound "Issue not found") := by
  have h := remove_logs_then_deletes "i1" "u1" "org1" exDb
    "Issue deleted successfully" exRemovedDb (by rfl)
  exact ⟨h.2.2.2.1, h.2.2.2.2.1, h.2.2.2.2.2 "org1"⟩

/-! ## C9 -/

/-- C9: `findAll` returns exactly the issues of the caller's
organization (a permutation of the organization filter), newest first
by creation time, each with creator/assignee summaries resolved; the
activity listing returns exactly the issue's entries, newest first by
timestamp, each with the performer's summary; and the history embedded
by `findOne` is that same listing. -/
theorem findAll_and_history_ordering (org issueId : String) (st : Db) :
    ((findAll org st).map IssueView.issue).Perm
      (st.issues.filter fun i => i.organizationId == org) ∧
    List.Sorted (fun a b : IssueView => b.issue.createdAt ≤ a.issue.createdAt)
      (findAll org st) ∧
    (∀ v ∈ findAll org st, v.issue.organizationId = org ∧
      v.createdBy = userSummary st v.issue.createdById ∧
      v.assignee = v.issue.assigneeId.bind (userSummary st)) ∧
    ((getActivitiesByIssue issueId st).map ActivityView.entry).Perm
      (st.activities.filter fun e => e.issueId == issueId) ∧
    List.Sorted (fun a b : ActivityView => b.entry.performedAt ≤ a.entry.performedAt)
      (getActivitiesByIssue issueId st) ∧
    (∀ a ∈ getActivitiesByIssue issueId st, a.entry.issueId = issueId ∧
      a.performedByUser = userSummary st a.entry.performedBy) ∧
    (∀ d, findOne issueId org st = .ok d →
      d.activities = getActivitiesByIssue d.issue.id st) := by
  have hmapI : (findAll org st).map IssueView.issue =
      (st.issues.filter fun i => i.organizationId == org).insertionSort
        newestIssueFirst := by
    unfold findAll
    rw [List.map_map]
    exact List.map_id _
  have hmapA : (getActivitiesByIssue issueId st).map ActivityView.entry =
      (st.activities.filter fun e => e.issueId == issueId).insertionSort
        newestActivityFirst := by
    unfold getActivitiesByIssue activityHistory
    rw [List.map_map]
    exact List.map_id _
  refine ⟨?_, ?_, ?_, ?_, ?_, ?_, ?_⟩
  · rw [hmapI]
    exact List.perm_insertionSort newestIssueFirst _
  · unfold findAll
    rw [List.Sorted, List.pairwise_map]
    exact List.sorted_insertionSort newestIssueFirst _
  · intro v hv
    unfold findAll at hv
    rcases List.mem_map.mp hv with ⟨i, hi, rfl⟩
    have hi' : i ∈ st.issues.filter (fun i => i.organizationId == org) :=
      (List.perm_insertionSort newestIssueFirst _).mem_iff.mp hi
    have horg := (List.mem_filter.mp hi').2
    simp only [beq_iff_eq] at horg
    exact ⟨horg, rfl, rfl⟩
  · rw [hmapA]
    exact List.perm_insertionSort newestActivityFirst _
  · unfold getActivitiesByIssue activityHistory
    rw [List.Sorted, List.pairwise_map]
    exact List.sorted_insertionSort newestActivityFirst _
  · intro a ha
    unfold getActivitiesByIssue activityHistory at ha
    rcases List.mem_map.mp ha with ⟨e, he, rfl⟩
    have he' : e ∈ st.activities.filter (fun e => e.issueId == issueId) :=
      (List.perm_insertionSort newestActivityFirst _).mem_iff.mp he
    have hiss := (List.mem_filter.mp he').2
    simp only [beq_iff_eq] at hiss
    exact ⟨hiss, rfl⟩
  · intro d hd
    rcases hfind : st.issues.find? (fun i => i.id == issueId && i.organizationId == org)
      with _ | i
    · simp [findOne, hfind] at hd
    · simp only [findOne, hfind, Except.ok.injEq] at hd
      subst hd
      rfl

/-- The concrete `findOne` detail used by the C9 witness. -/
def exDetail : IssueDetail :=
  (findOne "i1" "org1" exDb).toOption.getD
    ⟨⟨"", "", none, none, .OPEN, "", "", none, 0⟩, none, none, []⟩

/-- Witness for C9 at concrete inputs: in `exDb`, the view of `issue1`
listed for `org1` carries its resolved summaries, and the history
embedded by `findOne i1` equals the standalone activity listing. -/
theorem findAll_and_history_ordering_witness :
    ((issueView exDb issue1).issue.organizationId = "org1" ∧
      (issueView exDb issue1).createdBy =
        userSummary exDb (issueView exDb issue1).issue.createdById ∧
      (issueView exDb issue1).assignee =
        (issueView exDb issue1).issue.assigneeId.bind (userSummary exDb)) ∧
    exDetail.activities = getActivitiesByIssue exDetail.issue.id exDb := by
  have h := findAll_and_history_ordering "org1" "i1" exDb
  exact ⟨h.2.2.1 (issueView exDb issue1) (by decide),
    h.2.2.2.2.2.2 exDetail (by rfl)⟩

/-! ## Helper lemmas about the mutation primitives -/

/-- Activity logging never touches the issue table. -/
theorem foldl_logActivity_issues (cs : List Change) (s : Db) (id uid : String) :
    (cs.foldl (fun s c => logActivity s id c.actionType c.oldValue c.newValue uid)
      s).issues = s.issues := by
  induction cs generalizing s with
  | nil => rfl
  | cons c rest ih => exact ih _

/-- `applyUpdate` cannot move an issue to another organization: the dto
has no organization field. -/
theorem applyUpdate_organizationId (dto : UpdateIssueDto) (i : Issue) :
    (applyUpdate dto i).organizationId = i.organizationId := rfl

/-- A row whose id differs from the updated one stays in the table. -/
theorem mem_updateIssueTable_of_id_ne (dto : UpdateIssueDto) (id : String)
    (l : List Issue) (j : Issue) (hj : j ∈ l) (hne : j.id ≠ id) :
    j ∈ updateIssueTable dto id l := by
  induction l with
  | nil => cases hj
  | cons i rest ih =>
    unfold updateIssueTable
    rcases List.mem_cons.mp hj with rfl | hmem
    · rw [if_neg (by simpa using hne)]
      exact List.mem_cons_self _ _
    · by_cases hi : (i.id == id) = true
      · rw [if_pos hi]
        exact List.mem_cons_of_mem _ hmem
      · rw [if_neg hi]
        exact List.mem_cons_of_mem _ (ih hmem)

/-- Every row of the updated table was already a row, or is the updated
image of a row carrying the target id. -/
theorem mem_updateIssueTable_cases (dto : UpdateIssueDto) (id : String)
    (l : List Issue) (j : Issue) (hj : j ∈ updateIssueTable dto id l) :
    j ∈ l ∨ ∃ i ∈ l, i.id = id ∧ j = applyUpdate dto i := by
  induction l with
  | nil => cases hj
  | cons i rest ih =>
    unfold updateIssueTable at hj
    by_cases hi : (i.id == id) = true
    · rw [if_pos hi] at hj
      rcases List.mem_cons.mp hj with rfl | hmem
      · exact Or.inr ⟨i, List.mem_cons_self _ _, by simpa using hi, rfl⟩
      · exact Or.inl (List.mem_cons_of_mem _ hmem)
    · rw [if_neg hi] at hj
      rcases List.mem_cons.mp hj with rfl | hmem
      · exact Or.inl (List.mem_cons_self _ _)
      · rcases ih hmem with h | ⟨i', hi', hid', hji'⟩
        · exact Or.inl (List.mem_cons_of_mem _ h)
        · exact Or.inr ⟨i', List.mem_cons_of_mem _ hi', hid', hji'⟩

/-! ## C10 -/

/-- C10: the mutation primitives of `update` and `remove` filter by id
only, so the cross-tenant invariant rests on the preceding `findOne`:
every successful `update`/`remove` is preceded by a successful
same-organization lookup of the same id, and then (with unique issue
ids, the primary-key invariant) no issue outside the caller's
organization is modified or removed. -/
theorem mutation_gated_by_lookup (id uid org : String) (st : Db)
    (hids : (st.issues.map Issue.id).Nodup) :
    (∀ dto v st', update id dto uid org st = .ok (v, st') →
      (∃ d, findOne id org st = Except.ok d) ∧
      (∀ j ∈ st.issues, j.organizationId ≠ org → j ∈ st'.issues) ∧
      (∀ j ∈ st'.issues, j.organizationId ≠ org → j ∈ st.issues)) ∧
    (∀ m st', remove id uid org st = .ok (m, st') →
      (∃ d, findOne id org st = Except.ok d) ∧
      (∀ j ∈ st.issues, j.organizationId ≠ org → j ∈ st'.issues) ∧
      (∀ j ∈ st.issues, j ∉ st'.issues → j.organizationId = org)) := by
  have hkey : ∀ d, findOne id org st = .ok d →
      ∀ i ∈ st.issues, i.id = id → i.organizationId = org := by
    intro d hd i hi hid
    obtain ⟨hmem, hdid, hdorg⟩ := findOne_ok_mem id org st d hd
    have heq : i = d.issue :=
      List.inj_on_of_nodup_map hids hi hmem (by rw [hid, hdid])
    rw [heq]
    exact hdorg
  constructor
  · intro dto v st' hu
    rcases hfo : findOne id org st with e | d
    · rw [update_of_findOne_error id org uid st dto e hfo] at hu
      simp at hu
    · have hiss : st'.issues = updateIssueTable dto id st.issues := by
        simp only [update, hfo] at hu
        by_cases hcond : (truthyStr dto.assigneeId.join &&
            (findUserInOrg st (dto.assigneeId.join.getD "") org).isNone) = true
        · rw [if_pos hcond] at hu
          simp at hu
        · rw [if_neg hcond] at hu
          simp only [Except.ok.injEq, Prod.mk.injEq] at hu
          obtain ⟨hv, hst⟩ := hu
          subst hst
          by_cases hemp : (changesFor d.issue dto).isEmpty = true
          · rw [if_pos hemp]
            exact foldl_logActivity_issues _ _ _ _
          · rw [if_neg hemp]
            exact foldl_logActivity_issues _ _ _ _
      refine ⟨⟨d, rfl⟩, ?_, ?_⟩
      · intro j hj horg
        rw [hiss]
        refine mem_updateIssueTable_of_id_ne dto id st.issues j hj ?_
        intro hjid
        exact horg (hkey d hfo j hj hjid)
      · intro j hj horg
        rw [hiss] at hj
        rcases mem_updateIssueTable_cases dto id st.issues j hj
          with h | ⟨i, hi, hid', rfl⟩
        · exact h
        · exfalso
          apply horg
          rw [applyUpdate_organizationId]
          exact hkey d hfo i hi hid'
  · intro m st' hr
    rcases hfo : findOne id org st with e | d
    · rw [remove_of_findOne_error id org uid st e hfo] at hr
      simp at hr
    · have hiss : st'.issues = st.issues.filter (fun i => i.id ≠ id) := by
        simp only [remove, hfo, Except.ok.injEq, Prod.mk.injEq] at hr
        obtain ⟨hm, hst⟩ := hr
        subst hst
        rfl
      refine ⟨⟨d, rfl⟩, ?_, ?_⟩
      · intro j hj horg
        rw [hiss]
        refine List.mem_filter.mpr ⟨hj, ?_⟩
        have hjid : j.id ≠ id := fun hjid => horg (hkey d hfo j hj hjid)
        simp only [ne_eq, decide_not, Bool.not_eq_true', decide_eq_false_iff_not]
        exact hjid
      · intro j hj hnot
        by_contra horg
        apply hnot
        rw [hiss]
        refine List.mem_filter.mpr ⟨hj, ?_⟩
        have hjid : j.id ≠ id := fun hjid => horg (hkey d hfo j hj hjid)
        simp only [ne_eq, decide_not, Bool.not_eq_true', decide_eq_false_iff_not]
        exact hjid

/-- The status-only update request used by the C10 witness. -/
def exDtoStatus : UpdateIssueDto := ⟨none, none, some .IN_PROGRESS, none, none⟩

/-- The concrete result of the C10 witness's update request. -/
def exUpdatedPair : IssueView × Db :=
  (update "i1" exDtoStatus "u1" "org1" exDb).toOption.getD
    (⟨⟨"", "", none, none, .OPEN, "", "", none, 0⟩, none, none⟩, exDb)

/-- Witness for C10 at concrete inputs: the successful update of `i1`
by an `org1` admin was preceded by a successful lookup, and the `org2`
issue survives both the update and the delete untouched. -/
theorem mutation_gated_by_lookup_witness :
    (∃ d, findOne "i1" "org1" exDb = Except.ok d) ∧
    issue2 ∈ exUpdatedPair.2.issues ∧
    issue2 ∈ exRemovedDb.issues := by
  have h := mutation_gated_by_lookup "i1" "u1" "org1" exDb (by decide)
  have hu := h.1 exDtoStatus exUpdatedPair.1 exUpdatedPair.2 (by rfl)
  have hr := h.2 "Issue deleted successfully" exRemovedDb (by rfl)
  exact ⟨hu.1, hu.2.1 issue2 (by decide) (by decide),
    hr.2.1 issue2 (by decide) (by decide)⟩

/-! ## C2 -/

/-- The request-visible data of an activity row: issue id, action
type, old value, new value, performer (the server-assigned row id and
timestamp are omitted). -/
def entryData (e : ActivityLog) :
    String × ActivityType × Option String × Option String × String :=
  (e.issueId, e.actionType, e.oldValue, e.newValue, e.performedBy)

/-- Claim-side condition: the request supplies a status different from
the persisted one. -/
def statusDiffersB (existing : Issue) (dto : UpdateIssueDto) : Bool :=
  match dto.status with
  | some s => s ≠ existing.status
  | none => false

/-- Claim-side condition: the request supplies an assignee (possibly
null, i.e. clearing) different from the persisted one. -/
def assigneeDiffersB (existing : Issue) (dto : UpdateIssueDto) : Bool :=
  match dto.assigneeId with
  | some a => a ≠ existing.assigneeId
  | none => false

/-- Transcribed from the claim (the spec's words, for comparison with
the code): one `STATUS_CHANGED` entry when a differing status is
supplied (old = persisted, new = requested), one `ASSIGNEE_CHANGED`
entry when a differing assignee is supplied, `"unassigned"` replacing
an absent assignee on either side, and one generic `UPDATED` entry
when neither tracked field changed — nothing else. -/
def specUpdateEntries (id uid : String) (existing : Issue) (dto : UpdateIssueDto) :
    List (String × ActivityType × Option String × Option String × String) :=
  (match dto.status with
    | some s =>
        if s ≠ existing.status then
          [(id, .STATUS_CHANGED, some (statusToString existing.status),
            some (statusToString s), uid)]
        else []
    | none => []) ++
  (match dto.assigneeId with
    | some a =>
        if a ≠ existing.assigneeId then
          [(id, .ASSIGNEE_CHANGED, some (existing.assigneeId.getD "unassigned"),
            some (a.getD "unassigned"), uid)]
        else []
    | none => []) ++
  (if statusDiffersB existing dto = false ∧ assigneeDiffersB existing dto = false then
    [(id, .UPDATED, none, none, uid)]
  else [])

/-- Folding `logActivity` over a change list appends exactly one row
per change, in order, carrying that change's data. -/
theorem foldl_log_spec (cs : List Change) (s : Db) (id uid : String) :
    ∃ appended,
      (cs.foldl (fun s c => logActivity s id c.actionType c.oldValue c.newValue uid)
        s).activities = s.activities ++ appended ∧
      appended.map entryData =
        cs.map fun c => (id, c.actionType, c.oldValue, c.newValue, uid) := by
  induction cs generalizing s with
  | nil => exact ⟨[], by simp, rfl⟩
  | cons c rest ih =>
    obtain ⟨app, ha1, ha2⟩ :=
      ih (logActivity s id c.actionType c.oldValue c.newValue uid)
    refine ⟨⟨s.nextId, id, c.actionType, c.oldValue, c.newValue, uid, s.now⟩ :: app,
      ?_, ?_⟩
    · rw [List.foldl_cons, ha1]
      simp [logActivity]
    · simp [ha2, entryData]

/-- Under non-empty assignee ids, the data of the entries the code
appends (including the generic fallback) coincides with the claim-side
description. -/
theorem changes_map_eq_spec (id uid : String) (existing : Issue)
    (dto : UpdateIssueDto)
    (h1 : orUnassigned existing.assigneeId = existing.assigneeId.getD "unassigned")
    (h2 : ∀ a, dto.assigneeId = some a → orUnassigned a = a.getD "unassigned") :
    (if (changesFor existing dto).isEmpty = true
      then [(id, ActivityType.UPDATED, none, none, uid)]
      else (changesFor existing dto).map fun c =>
        (id, c.actionType, c.oldValue, c.newValue, uid))
      = specUpdateEntries id uid existing dto := by
  unfold changesFor specUpdateEntries statusDiffersB assigneeDiffersB
  rcases hds : dto.status with _ | s <;> rcases hda : dto.assigneeId with _ | a
  · simp
  · by_cases haa : a = existing.assigneeId
    · simp [haa]
    · simp [haa, h2 a hda, h1]
  · by_cases hss : s = existing.status
    · simp [hss]
    · simp [hss]
  · by_cases hss : s = existing.status <;> by_cases haa : a = existing.assigneeId
    · simp [hss, haa]
    · simp [hss, haa, h2 a hda, h1]
    · simp [hss, haa]
    · simp [hss, haa, h2 a hda, h1]

/-- C2: a successful `update` of an existing issue appends exactly the
entries the claim describes — one `STATUS_CHANGED` with old = persisted
status and new = requested status exactly when a differing status is
supplied, one `ASSIGNEE_CHANGED` with `"unassigned"` for an absent
assignee on either side exactly when a differing assignee (possibly
null) is supplied, one generic `UPDATED` exactly when neither changed,
and nothing else; stated under the store/request well-formedness that
assignee ids are never the empty string. -/
theorem update_activity_diff (id uid org : String) (st : Db) (dto : UpdateIssueDto)
    (v : IssueView) (st' : Db)
    (hu : update id dto uid org st = .ok (v, st'))
    (hdto : ∀ a, dto.assigneeId = some (some a) → a ≠ "")
    (hdb : ∀ i ∈ st.issues, i.assigneeId ≠ some "") :
    ∃ existing,
      st.issues.find? (fun i => i.id == id && i.organizationId == org) =
        some existing ∧
      ∃ appended, st'.activities = st.activities ++ appended ∧
        appended.map entryData = specUpdateEntries id uid existing dto := by
  rcases hfo : findOne id org st with e | d
  · rw [update_of_findOne_error id org uid st dto e hfo] at hu
    simp at hu
  · have hfind := findOne_ok_find? id org st d hfo
    refine ⟨d.issue, hfind, ?_⟩
    have hmem := (findOne_ok_mem id org st d hfo).1
    have hone : orUnassigned d.issue.assigneeId =
        d.issue.assigneeId.getD "unassigned" := by
      rcases hx : d.issue.assigneeId with _ | s
      · rfl
      · have hs : s ≠ "" := by
          intro h0
          exact hdb d.issue hmem (by rw [hx, h0])
        simp [orUnassigned, hs]
    have htwo : ∀ a, dto.assigneeId = some a →
        orUnassigned a = a.getD "unassigned" := by
      intro a ha
      rcases a with _ | s
      · rfl
      · have hs : s ≠ "" := hdto s ha
        simp [orUnassigned, hs]
    simp only [update, hfo] at hu
    by_cases hcond : (truthyStr dto.assigneeId.join &&
        (findUserInOrg st (dto.assigneeId.join.getD "") org).isNone) = true
    · rw [if_pos hcond] at hu
      simp at hu
    · rw [if_neg hcond] at hu
      simp only [Except.ok.injEq, Prod.mk.injEq] at hu
      obtain ⟨hv, hst⟩ := hu
      subst hst
      obtain ⟨app, ha1, ha2⟩ := foldl_log_spec (changesFor d.issue dto)
        { st with issues := updateIssueTable dto id st.issues } id uid
      by_cases hemp : (changesFor d.issue dto).isEmpty = true
      · have hnil : changesFor d.issue dto = [] := List.isEmpty_iff.mp hemp
        rw [if_pos hemp]
        refine ⟨[⟨st.nextId, id, .UPDATED, none, none, uid, st.now⟩], ?_, ?_⟩
        · rw [hnil]
          rfl
        · have hspec := changes_map_eq_spec id uid d.issue dto hone htwo
          rw [if_pos hemp] at hspec
          exact hspec
      · rw [if_neg hemp]
        refine ⟨app, ha1, ?_⟩
        have hspec := changes_map_eq_spec id uid d.issue dto hone htwo
        rw [if_neg hemp] at hspec
        rw [ha2]
        exact hspec

/-- The C2 witness's update request: set status to `IN_PROGRESS` and
clear the assignee. -/
def exDtoBoth : UpdateIssueDto := ⟨none, none, some .IN_PROGRESS, none, some none⟩

/-- The concrete result of the C2 witness's update request. -/
def exUpdatedBoth : IssueView × Db :=
  (update "i1" exDtoBoth "u1" "org1" exDb).toOption.getD
    (⟨⟨"", "", none, none, .OPEN, "", "", none, 0⟩, none, none⟩, exDb)

/-- Witness for C2 at concrete inputs: updating `i1` (status `OPEN`,
assignee `u2`) with a status change and an assignee clearing appends
exactly the claim-described entries after the prior log. -/
theorem update_activity_diff_witness :
    exUpdatedBoth.2.activities.map entryData =
      exDb.activities.map entryData ++
        specUpdateEntries "i1" "u1" issue1 exDtoBoth := by
  have h := update_activity_diff "i1" "u1" "org1" exDb exDtoBoth
    exUpdatedBoth.1 exUpdatedBoth.2 (by rfl)
    (by intro a ha; simp [exDtoBoth] at ha) (by decide)
  obtain ⟨ex, hfind, app, happ, hmap⟩ := h
  have hfind1 : (exDb.issues.find? fun i =>
      i.id == "i1" && i.organizationId == "org1") = some issue1 := by decide
  rw [hfind1] at hfind
  obtain rfl : issue1 = ex := by
    injection hfind
  rw [happ, List.map_append, hmap]

end IssueApi
